import Mathlib

/-!
Verification of the prediction-ensemble script (extract_disagreements.py).

The script merges several two-column prediction tables (record id, boolean
prediction) by iterated inner join on the id column, extracts the rows on
which the sources disagree, and — when enabled and the source count is odd —
computes a per-row majority vote.

Shallow embedding conventions:
- a raw input table (one CSV file) is a `List (K × Bool)`: ordered rows of
  (record id, boolean prediction);
- a merged table is a `List (K × List Bool)`: each row keeps the id and the
  ordered sequence of per-source predictions (one column per source);
- the filesystem is a pair of functions: `present : String → Bool` (does the
  file exist) and `tableOf : String → List (K × Bool)` (its parsed contents);
- pandas `DataFrame.join(·, how := inner)` on the index is modelled by
  `joinInner`: every left row is paired with every right row carrying the
  same key, in left-then-right order, exactly as pandas does (duplicate index
  values are NOT an error for pandas, they produce one output row per
  matching pair);
- `nunique(axis := 1)` is `nunique`, the number of distinct values in a row;
- summing a row of booleans is `trueCount`; the float comparison
  `true_counts > n / 2` is exact for these magnitudes and is embedded as
  `n < 2 * trueCount`.
-/

/-- One parsed input CSV lifted to merged-table form: each row's single
prediction becomes a one-element column sequence (the `set_index` +
`rename` step of the script). -/
def toTable {K : Type} (t : List (K × Bool)) : List (K × List Bool) :=
  t.map (fun p => (p.1, [p.2]))

/-- pandas inner join on the index: each left row is combined with every
right row holding the same key, appending the right row's columns. -/
def joinInner {K : Type} [DecidableEq K] (l r : List (K × List Bool)) :
    List (K × List Bool) :=
  l.flatMap (fun p =>
    (r.filter (fun q => decide (q.1 = p.1))).map (fun q => (p.1, p.2 ++ q.2)))

/-- The Merger: read the first table, then fold the remaining tables in with
inner joins (lines 100-119 and 48-58 of the script). Never called on an
empty list by the script (`main` exits first). -/
def mergeTables {K : Type} [DecidableEq K] :
    List (List (K × Bool)) → List (K × List Bool)
  | [] => []
  | t :: ts => ts.foldl (fun acc u => joinInner acc (toTable u)) (toTable t)

/-- `nunique` of a row of booleans: the number of distinct values. -/
def nunique (l : List Bool) : Nat := l.dedup.length

/-- The DisagreementExtractor core: keep the merged rows whose predictions
take more than one distinct value (`nunique(axis=1) > 1`, line 127). -/
def disagreementRows {K : Type} (m : List (K × List Bool)) :
    List (K × List Bool) :=
  m.filter (fun r => decide (1 < nunique r.2))

/-- Number of `true` entries in a row (`sum(axis=1)` over booleans). -/
def trueCount (l : List Bool) : Nat := l.count true

/-- The MajorityVoter (`create_ensemble_prediction`, lines 32-80): refuses
with `none` when the source count is even; otherwise re-merges the tables
and maps each row to its strict-majority vote
(`true_counts > len(transported_cols) / 2`, with `len(transported_cols)`
the number of sources). -/
def create_ensemble_prediction {K : Type} [DecidableEq K]
    (tables : List (List (K × Bool))) : Option (List (K × Bool)) :=
  if tables.length % 2 = 0 then none
  else
    some ((mergeTables tables).map
      (fun r => (r.1, decide (tables.length < 2 * trueCount r.2))))

/-- What one run of `extract_disagreements` (lines 82-158) produces:
the merged table, the disagreement subset, and the CSV it writes
(`none` when the write is skipped because there is no disagreement). -/
structure ExtractResult (K : Type) where
  merged : List (K × List Bool)
  disagreements : List (K × List Bool)
  outputFile : Option (List (K × List Bool))
deriving DecidableEq, Repr

/-- `extract_disagreements`: fails (returns `none`, after reporting) when any
listed file is absent (lines 94-98); otherwise merges all tables, filters the
disagreement rows and writes them out only when at least one exists
(lines 133-156). -/
def extract_disagreements {K : Type} [DecidableEq K]
    (present : String → Bool) (tableOf : String → List (K × Bool))
    (files : List String) : Option (ExtractResult K) :=
  if files.all present then
    let merged := mergeTables (files.map tableOf)
    let dis := disagreementRows merged
    some { merged := merged
           disagreements := dis
           outputFile := if 0 < dis.length then some dis else none }
  else none

/-- Observable outcome of one run of `main` (lines 160-212). -/
structure RunResult (K : Type) where
  exitCode : Nat
  missingWarned : List String
  usedFiles : List String
  extractResult : Option (ExtractResult K)
  consensus : Option (List (K × Bool))
  consensusSkippedWarning : Bool
deriving DecidableEq, Repr

/-- `main`: partitions the configured files into existing and missing ones,
warns about each missing file, exits with status 1 when none exists,
otherwise runs the extractor on exactly the existing subset and — when
`CREATE_FINAL_SUBMISSION` is set and the existing count is odd — the
majority voter; an even count under the flag only earns a notice
(lines 164-207). -/
def runMain {K : Type} [DecidableEq K] (createFinal : Bool)
    (present : String → Bool) (tableOf : String → List (K × Bool))
    (csv_files : List String) : RunResult K :=
  let existing := csv_files.filter (fun f => present f)
  let missing := csv_files.filter (fun f => !present f)
  if existing.isEmpty then
    { exitCode := 1
      missingWarned := missing
      usedFiles := []
      extractResult := none
      consensus := none
      consensusSkippedWarning := false }
  else
    { exitCode := 0
      missingWarned := missing
      usedFiles := existing
      extractResult := extract_disagreements present tableOf existing
      consensus :=
        if createFinal && existing.length % 2 == 1 then
          create_ensemble_prediction (existing.map tableOf)
        else none
      consensusSkippedWarning := createFinal && existing.length % 2 == 0 }

/-! ### Helper lemmas about the embedding -/

theorem keys_toTable {K : Type} (t : List (K × Bool)) :
    (toTable t).map Prod.fst = t.map Prod.fst := by
  induction t with
  | nil => rfl
  | cons p t ih => simp [toTable] at ih ⊢

theorem mem_keys_joinInner {K : Type} [DecidableEq K]
    {l r : List (K × List Bool)} {k : K} :
    k ∈ (joinInner l r).map Prod.fst ↔
      k ∈ l.map Prod.fst ∧ k ∈ r.map Prod.fst := by
  simp only [joinInner, List.mem_map, List.mem_flatMap, List.mem_filter,
    decide_eq_true_eq]
  constructor
  · rintro ⟨x, ⟨p, hp, q, ⟨hq, hqk⟩, rfl⟩, rfl⟩
    exact ⟨⟨p, hp, rfl⟩, ⟨q, hq, hqk⟩⟩
  · rintro ⟨⟨p, hp, rfl⟩, ⟨q, hq, hqk⟩⟩
    exact ⟨(p.1, p.2 ++ q.2), ⟨p, hp, q, ⟨hq, hqk⟩, rfl⟩, rfl⟩

theorem length_snd_toTable {K : Type} (t : List (K × Bool)) :
    ∀ x ∈ toTable t, x.2.length = 1 := by
  intro x hx
  simp only [toTable, List.mem_map] at hx
  obtain ⟨p, _, rfl⟩ := hx
  rfl

theorem length_snd_joinInner {K : Type} [DecidableEq K]
    {l r : List (K × List Bool)} {a b : Nat}
    (hl : ∀ p ∈ l, p.2.length = a) (hr : ∀ q ∈ r, q.2.length = b) :
    ∀ x ∈ joinInner l r, x.2.length = a + b := by
  intro x hx
  simp only [joinInner, List.mem_flatMap, List.mem_map, List.mem_filter] at hx
  obtain ⟨p, hp, q, ⟨hq, _⟩, rfl⟩ := hx
  simp [hl p hp, hr q hq]

theorem foldl_join_keys {K : Type} [DecidableEq K]
    (ts : List (List (K × Bool))) (acc : List (K × List Bool)) (k : K) :
    k ∈ ((ts.foldl (fun a u => joinInner a (toTable u)) acc).map Prod.fst) ↔
      k ∈ acc.map Prod.fst ∧ ∀ u ∈ ts, k ∈ u.map Prod.fst := by
  induction ts generalizing acc with
  | nil => simp
  | cons u us ih =>
      simp only [List.foldl_cons, ih, mem_keys_joinInner, keys_toTable,
        List.forall_mem_cons]
      tauto

theorem foldl_join_row_length {K : Type} [DecidableEq K]
    (ts : List (List (K × Bool))) (acc : List (K × List Bool)) (m : Nat)
    (hacc : ∀ x ∈ acc, x.2.length = m) :
    ∀ x ∈ ts.foldl (fun a u => joinInner a (toTable u)) acc,
      x.2.length = m + ts.length := by
  induction ts generalizing acc m with
  | nil => simpa using hacc
  | cons u us ih =>
      intro x hx
      have h1 : ∀ y ∈ joinInner acc (toTable u), y.2.length = m + 1 :=
        length_snd_joinInner hacc (length_snd_toTable u)
      have := ih (joinInner acc (toTable u)) (m + 1) h1 x hx
      simp only [List.length_cons]
      omega

theorem mergeTables_keys {K : Type} [DecidableEq K]
    (t : List (K × Bool)) (ts : List (List (K × Bool))) (k : K) :
    k ∈ (mergeTables (t :: ts)).map Prod.fst ↔
      ∀ u ∈ t :: ts, k ∈ u.map Prod.fst := by
  simp only [mergeTables, foldl_join_keys, keys_toTable, List.forall_mem_cons]

theorem mergeTables_row_length {K : Type} [DecidableEq K]
    (t : List (K × Bool)) (ts : List (List (K × Bool))) :
    ∀ x ∈ mergeTables (t :: ts), x.2.length = (t :: ts).length := by
  intro x hx
  have := foldl_join_row_length ts (toTable t) 1 (length_snd_toTable t) x hx
  simpa [Nat.add_comm] using this

theorem one_lt_nunique_iff (l : List Bool) :
    1 < nunique l ↔ ∃ v ∈ l, ∃ w ∈ l, v ≠ w := by
  unfold nunique
  rw [← List.card_toFinset, Finset.one_lt_card]
  simp [List.mem_toFinset]

theorem mem_disagreementRows {K : Type} {m : List (K × List Bool)}
    {r : K × List Bool} :
    r ∈ disagreementRows m ↔ r ∈ m ∧ 1 < nunique r.2 := by
  simp [disagreementRows, List.mem_filter]

theorem disagreementRows_toTable {K : Type} (t : List (K × Bool)) :
    disagreementRows (toTable t) = [] := by
  refine List.filter_eq_nil_iff.mpr ?_
  intro a ha
  simp only [toTable, List.mem_map] at ha
  obtain ⟨p, _, rfl⟩ := ha
  simp [nunique, List.dedup_cons_of_not_mem, List.dedup_nil]

/-! ### Claim theorems -/

/-- Claim C2: for every nonempty collection of input prediction tables (each
with unique RecordIds), the RecordId set of the merged table equals the
set-intersection of the RecordId sets of all input tables. -/
theorem merged_keys_are_intersection {K : Type} [DecidableEq K]
    (tables : List (List (K × Bool))) (hne : tables ≠ [])
    (huniq : ∀ t ∈ tables, (t.map Prod.fst).Nodup) (k : K) :
    k ∈ (mergeTables tables).map Prod.fst ↔
      ∀ t ∈ tables, k ∈ t.map Prod.fst := by
  cases tables with
  | nil => exact absurd rfl hne
  | cons t ts => exact mergeTables_keys t ts k

theorem merged_keys_are_intersection_witness :
    (2 : Nat) ∈ (mergeTables
      [[((1 : Nat), true), (2, false)], [(2, true), (3, false)]]).map Prod.fst :=
  (merged_keys_are_intersection
    [[((1 : Nat), true), (2, false)], [(2, true), (3, false)]]
    (by decide) (by decide) 2).mpr (by decide)

/-- Claim C3: the DisagreementExtractor keeps exactly the merged rows whose
per-source predictions are not all equal (at least two distinct values);
retained rows are whole merged rows, so they keep all per-source columns. -/
theorem disagreement_rows_exact {K : Type} (merged : List (K × List Bool))
    (r : K × List Bool) :
    r ∈ disagreementRows merged ↔
      r ∈ merged ∧ ∃ v ∈ r.2, ∃ w ∈ r.2, v ≠ w := by
  rw [mem_disagreementRows, one_lt_nunique_iff]

/-- Claim C8: with a single input source, the disagreement output is empty:
the extractor succeeds, flags no row, and skips the CSV write. -/
theorem single_source_no_disagreement {K : Type} [DecidableEq K]
    (present : String → Bool) (tableOf : String → List (K × Bool))
    (f : String) (hp : present f = true) :
    extract_disagreements present tableOf [f] =
      some ⟨toTable (tableOf f), [], none⟩ := by
  unfold extract_disagreements
  rw [if_pos (by simp [hp])]
  simp [mergeTables, disagreementRows_toTable]

theorem single_source_no_disagreement_witness :
    extract_disagreements (fun _ => true)
      (fun _ => [((1 : Nat), true), (2, false)]) ["a"] =
      some ⟨[(1, [true]), (2, [false])], [], none⟩ :=
  single_source_no_disagreement (fun _ => true)
    (fun _ => [((1 : Nat), true), (2, false)]) "a" rfl

/-- Claim C9: the disagreement filter is idempotent — applying it to its own
output yields exactly the same rows. -/
theorem disagreement_filter_idempotent {K : Type}
    (merged : List (K × List Bool)) :
    disagreementRows (disagreementRows merged) = disagreementRows merged := by
  simp [disagreementRows, List.filter_filter]

/-- Claim C10: whenever the statistics branch is reached (the disagreement
set is non-empty), the merged table is non-empty, so the agreement-rate
division `(total - disagreeing) / total` never divides by zero. -/
theorem agreement_rate_denominator_nonzero {K : Type} [DecidableEq K]
    (present : String → Bool) (tableOf : String → List (K × Bool))
    (files : List String) (r : ExtractResult K)
    (h : extract_disagreements present tableOf files = some r)
    (hdis : r.disagreements ≠ []) :
    r.merged.length ≠ 0 := by
  simp only [extract_disagreements] at h
  split at h
  · rw [Option.some.injEq] at h
    subst h
    simp only at hdis ⊢
    intro hlen
    rw [List.length_eq_zero] at hlen
    exact hdis (by simp [hlen, disagreementRows])
  · cases h

theorem agreement_rate_denominator_nonzero_witness :
    ([((1 : Nat), [true, false])] : List (Nat × List Bool)).length ≠ 0 :=
  agreement_rate_denominator_nonzero (fun _ => true)
    (fun f => if f = "a" then [((1 : Nat), true)] else [(1, false)])
    ["a", "b"]
    ⟨[(1, [true, false])], [(1, [true, false])], some [(1, [true, false])]⟩
    (by decide) (by decide)

/-- Claim C1: with an odd number n of sources the MajorityVoter produces an
output holding exactly one (id, vote) row per merged row, each merged row
carries n per-source values, and each output vote is true iff strictly more
than n / 2 of that row's values are true (`2 * trueCount > n`). -/
theorem majority_vote_output {K : Type} [DecidableEq K]
    (tables : List (List (K × Bool))) (hodd : tables.length % 2 = 1) :
    ∃ out, create_ensemble_prediction tables = some out ∧
      out.length = (mergeTables tables).length ∧
      ∀ i, (hi : i < out.length) → (hm : i < (mergeTables tables).length) →
        (out[i]).1 = ((mergeTables tables)[i]).1 ∧
        ((mergeTables tables)[i]).2.length = tables.length ∧
        ((out[i]).2 = true ↔
          tables.length < 2 * trueCount ((mergeTables tables)[i]).2) := by
  refine ⟨(mergeTables tables).map
      (fun r => (r.1, decide (tables.length < 2 * trueCount r.2))), ?_, ?_, ?_⟩
  · unfold create_ensemble_prediction
    rw [if_neg (by omega)]
  · simp
  · intro i hi hm
    obtain ⟨t, ts, rfl⟩ : ∃ t ts, tables = t :: ts := by
      cases tables with
      | nil => simp at hodd
      | cons t ts => exact ⟨t, ts, rfl⟩
    refine ⟨?_, ?_, ?_⟩
    · simp
    · exact mergeTables_row_length t ts _ (List.getElem_mem hm)
    · simp

theorem majority_vote_output_witness :
    (create_ensemble_prediction
      [[((1 : Nat), true), (2, false)], [(1, true), (2, true)],
       [(1, false), (2, false)]]).isSome = true := by
  obtain ⟨out, h1, -, -⟩ := majority_vote_output
    [[((1 : Nat), true), (2, false)], [(1, true), (2, true)],
     [(1, false), (2, false)]] (by decide)
  rw [h1]; rfl

/-- Claim C4: when consensus is requested over an even number of existing
sources, the run produces no consensus, records the skip notice, and every
other observable of the run (extraction result, exit code, warnings, used
files) is the same as in a run with consensus disabled. -/
theorem even_source_count_skips_consensus {K : Type} [DecidableEq K]
    (present : String → Bool) (tableOf : String → List (K × Bool))
    (csv_files : List String)
    (hne : csv_files.filter (fun f => present f) ≠ [])
    (heven : (csv_files.filter (fun f => present f)).length % 2 = 0) :
    (runMain true present tableOf csv_files).consensus = none ∧
    (runMain true present tableOf csv_files).consensusSkippedWarning = true ∧
    (runMain true present tableOf csv_files).extractResult =
      (runMain false present tableOf csv_files).extractResult ∧
    (runMain true present tableOf csv_files).exitCode =
      (runMain false present tableOf csv_files).exitCode ∧
    (runMain true present tableOf csv_files).missingWarned =
      (runMain false present tableOf csv_files).missingWarned := by
  have h1 : (csv_files.filter (fun f => present f)).isEmpty = false := by
    simpa [List.isEmpty_iff] using hne
  simp [runMain, h1, heven]

theorem even_source_count_skips_consensus_witness :
    (runMain true (fun _ => true) (fun _ => [((1 : Nat), true)])
        ["a", "b"]).consensus = none ∧
    (runMain true (fun _ => true) (fun _ => [((1 : Nat), true)])
        ["a", "b"]).consensusSkippedWarning = true ∧
    (runMain true (fun _ => true) (fun _ => [((1 : Nat), true)])
        ["a", "b"]).extractResult =
      (runMain false (fun _ => true) (fun _ => [((1 : Nat), true)])
        ["a", "b"]).extractResult ∧
    (runMain true (fun _ => true) (fun _ => [((1 : Nat), true)])
        ["a", "b"]).exitCode =
      (runMain false (fun _ => true) (fun _ => [((1 : Nat), true)])
        ["a", "b"]).exitCode ∧
    (runMain true (fun _ => true) (fun _ => [((1 : Nat), true)])
        ["a", "b"]).missingWarned =
      (runMain false (fun _ => true) (fun _ => [((1 : Nat), true)])
        ["a", "b"]).missingWarned :=
  even_source_count_skips_consensus (fun _ => true)
    (fun _ => [((1 : Nat), true)]) ["a", "b"] (by decide) (by decide)

/-- Claim C5 (amended): the Merger fails — returns no merged result — exactly
when some declared input file is absent; duplicate RecordIds within a single
table are not detected and do not cause a failure. -/
theorem merger_fails_iff_missing_input {K : Type} [DecidableEq K]
    (present : String → Bool) (tableOf : String → List (K × Bool))
    (files : List String) (_hne : files ≠ []) :
    extract_disagreements present tableOf files = none ↔
      ∃ f ∈ files, present f = false := by
  unfold extract_disagreements
  split
  next hall =>
    rw [List.all_eq_true] at hall
    constructor
    · intro h; cases h
    · rintro ⟨f, hf, hpf⟩
      rw [hall f hf] at hpf; cases hpf
  next hall =>
    rw [List.all_eq_true] at hall
    push_neg at hall
    obtain ⟨f, hf, hpf⟩ := hall
    exact iff_of_true rfl ⟨f, hf, by simpa using hpf⟩

theorem merger_fails_iff_missing_input_witness :
    extract_disagreements (fun f => decide (f = "a"))
      (fun _ => [((1 : Nat), true)]) ["a", "b"] = none :=
  (merger_fails_iff_missing_input (fun f => decide (f = "a"))
    (fun _ => [((1 : Nat), true)]) ["a", "b"] (by decide)).mpr
    ⟨"b", by decide, by decide⟩

/-- Counterexample to claim C5 as stated: the input file a holds the
duplicate RecordId 1 twice, yet the Merger does not fail — it produces a
merged result (one row per matching pair, pandas join semantics), and even
reports a disagreement built from the duplicated id. -/
theorem duplicate_ids_do_not_fail_merge :
    extract_disagreements (fun _ => true)
      (fun f => if f = "a" then [((1 : Nat), true), (1, false)]
                else [(1, true)])
      ["a", "b"] =
      some ⟨[(1, [true, true]), (1, [false, true])], [(1, [false, true])],
            some [(1, [false, true])]⟩ := by
  rfl

/-- Claim C6: the program exits non-zero iff none of the configured input
files exists; it always warns about exactly the missing files, and when at
least one file exists it proceeds on exactly the existing subset. -/
theorem exit_nonzero_iff_no_input {K : Type} [DecidableEq K]
    (createFinal : Bool) (present : String → Bool)
    (tableOf : String → List (K × Bool)) (csv_files : List String) :
    ((runMain createFinal present tableOf csv_files).exitCode ≠ 0 ↔
      csv_files.filter (fun f => present f) = []) ∧
    (runMain createFinal present tableOf csv_files).missingWarned =
      csv_files.filter (fun f => !present f) ∧
    (csv_files.filter (fun f => present f) ≠ [] →
      (runMain createFinal present tableOf csv_files).usedFiles =
        csv_files.filter (fun f => present f) ∧
      (runMain createFinal present tableOf csv_files).extractResult =
        extract_disagreements present tableOf
          (csv_files.filter (fun f => present f))) := by
  by_cases h : csv_files.filter (fun f => present f) = []
  · simp [runMain, h]
  · have h1 : (csv_files.filter (fun f => present f)).isEmpty = false := by
      simpa [List.isEmpty_iff] using h
    simp [runMain, h1, h]

theorem exit_nonzero_iff_no_input_witness :
    (runMain true (fun _ => false) (fun _ => ([] : List (Nat × Bool)))
      ["a"]).exitCode ≠ 0 :=
  (exit_nonzero_iff_no_input true (fun _ => false)
    (fun _ => ([] : List (Nat × Bool))) ["a"]).1.mpr (by decide)

/-- Claim C7: a successful extraction writes the disagreement CSV iff the
disagreement set is non-empty; what is written is exactly the disagreement
rows, each a merged row carrying one boolean per source; an empty
disagreement set (in particular an empty inner join) skips the write. -/
theorem disagreement_output_written_iff_nonempty {K : Type} [DecidableEq K]
    (present : String → Bool) (tableOf : String → List (K × Bool))
    (files : List String) (r : ExtractResult K) (hne : files ≠ [])
    (h : extract_disagreements present tableOf files = some r) :
    (r.disagreements ≠ [] →
       r.outputFile = some r.disagreements ∧
       ∀ row ∈ r.disagreements,
         row ∈ r.merged ∧ row.2.length = files.length) ∧
    (r.disagreements = [] → r.outputFile = none) := by
  simp only [extract_disagreements] at h
  split at h
  next hall =>
    rw [Option.some.injEq] at h
    subst h
    simp only
    constructor
    · intro hd
      refine ⟨if_pos (List.length_pos.mpr hd), ?_⟩
      intro row hrow
      have hmem := (mem_disagreementRows.mp hrow).1
      refine ⟨hmem, ?_⟩
      obtain ⟨f, fs, rfl⟩ : ∃ f fs, files = f :: fs := by
        cases files with
        | nil => exact absurd rfl hne
        | cons f fs => exact ⟨f, fs, rfl⟩
      have hlen := mergeTables_row_length (tableOf f) (fs.map tableOf) row
        (by simpa using hmem)
      simpa using hlen
    · intro hd
      simp [hd]
  next => cases h

theorem disagreement_output_written_iff_nonempty_witness :
    ((⟨[((1 : Nat), [true, false])], [(1, [true, false])],
        some [(1, [true, false])]⟩ :
      ExtractResult Nat).outputFile = some [((1 : Nat), [true, false])]) :=
  ((disagreement_output_written_iff_nonempty (fun _ => true)
      (fun f => if f = "a" then [((1 : Nat), true)] else [(1, false)])
      ["a", "b"]
      ⟨[(1, [true, false])], [(1, [true, false])], some [(1, [true, false])]⟩
      (by decide) (by decide)).1 (by decide)).1
